import Mathlib

/-!
Shallow embedding of `web_player.py` (MDSonar/digitalsignage).

The filesystem content store and the configuration inputs are modelled as
explicit data: strings stand for file names, natural numbers for durations,
elapsed times and timestamps.  Fallible reads of the configuration file are
modelled by an explicit outcome type.  The MD5 fingerprint of the sync
endpoint is abstracted as an arbitrary function from playlists to strings,
since only equality of fingerprints is ever inspected by the code.
-/

/-- One playlist item as built by `get_playlist` / `build_playlist_with_durations`:
a Python dict with keys `type`, `url`, `name` and an optional `duration`. -/
structure Entry where
  type : String
  url : String
  name : String
  duration : Option Nat
deriving DecidableEq, Repr

/-- A normalized selection entry read from `playlist.json`
(`{'name': ..., 'repeats': ...}` after the normalization loop). -/
structure SelEntry where
  name : String
  repeats : Nat
deriving DecidableEq, Repr

/-- The content store: the state of the directories `web_player.py` scans.
`videoDirFiles` are the names of the plain files in `VIDEOS_DIR`;
`presentations` are the subdirectories of `SLIDES_CACHE_DIR`
(stem of the presentation, names of the files inside), in directory order. -/
structure Store where
  videosDirExists : Bool
  videoDirFiles : List String
  slidesCacheExists : Bool
  presentations : List (String × List String)
deriving DecidableEq, Repr

/-- Lower-case every character of a string. -/
def lowerStr (s : String) : String := String.mk (s.toList.map Char.toLower)

/-- Upper-case every character of a string (Python `str.upper` on ASCII). -/
def upperStr (s : String) : String := String.mk (s.toList.map Char.toUpper)

/-- Suffix test on strings, as the glob pattern `*<ext>` performs. -/
def endsWithStr (s suffx : String) : Bool := suffx.toList.isSuffixOf s.toList

/-- Prefix test on strings, as the glob pattern `<pre>*` performs. -/
def beginsWithStr (s pre : String) : Bool := pre.toList.isPrefixOf s.toList

/-- Lexicographic comparison of character lists by code point; this is the
order Python uses when comparing strings (and hence when sorting file names). -/
def charListLe : List Char → List Char → Bool
  | [], _ => true
  | _ :: _, [] => false
  | a :: as, b :: bs =>
    if a.toNat < b.toNat then true
    else if b.toNat < a.toNat then false
    else charListLe as bs

/-- Code-point lexicographic order on strings, as a proposition. -/
def strLe (a b : String) : Prop := charListLe a.toList b.toList = true

instance : DecidableRel strLe :=
  fun a b => inferInstanceAs (Decidable (charListLe a.toList b.toList = true))

/-- Order on presentation subdirectories: by directory name. -/
def presLe (a b : String × List String) : Prop := strLe a.1 b.1

instance : DecidableRel presLe := fun a b => inferInstanceAs (Decidable (strLe a.1 b.1))

/-- Python `sorted` on file names (lexicographic by code point). -/
def sortStr (l : List String) : List String := List.insertionSort strLe l

/-- Python `sorted(SLIDES_CACHE_DIR.iterdir())`: subdirectories ordered by name. -/
def sortPres (l : List (String × List String)) : List (String × List String) :=
  List.insertionSort presLe l

/-- `VIDEO_FORMATS` from `web_player.py`. -/
def VIDEO_FORMATS : List String := [".mp4", ".avi", ".mov", ".mkv", ".webm"]

/-- `SLIDE_DURATION` from `web_player.py`. -/
def SLIDE_DURATION : Nat := 10

/-- Embeds `get_video_files`: for each recognized extension, glob `*<ext>` and
`*<EXT>` (accumulating the matches), then sort everything by name.  A missing
directory gives the empty list. -/
def get_video_files (st : Store) : List String :=
  if st.videosDirExists then
    sortStr (VIDEO_FORMATS.flatMap fun ext =>
      st.videoDirFiles.filter (fun f => endsWithStr f ext) ++
      st.videoDirFiles.filter (fun f => endsWithStr f (upperStr ext)))
  else []

/-- The glob pattern `slide_*.png` used inside the slides cache. -/
def isSlideFile (f : String) : Bool := beginsWithStr f "slide_" && endsWithStr f ".png"

/-- Embeds `get_slide_files`: for each presentation subdirectory, in sorted
order, the sorted `slide_*.png` files inside, tagged with their stem. -/
def get_slide_files (st : Store) : List (String × String) :=
  if st.slidesCacheExists then
    (sortPres st.presentations).flatMap fun p =>
      (sortStr (p.2.filter isSlideFile)).map fun f => (p.1, f)
  else []

/-- Python `Path(name).stem`: the name with its final extension removed; the
dot must be strictly inside the name for an extension to exist. -/
def stem (s : String) : String :=
  let cs := s.toList
  match cs.reverse.findIdx? (fun c => c == '.') with
  | none => s
  | some k =>
    let i := cs.length - 1 - k
    if 0 < i ∧ i < cs.length - 1 then String.mk (cs.take i) else s

/-- A video entry of `get_playlist` (no `duration` key). -/
def video_entry (n : String) : Entry :=
  { type := "video", url := "/content/videos/" ++ n, name := n, duration := none }

/-- A video entry of `build_playlist_with_durations` (with `duration`). -/
def video_entry_sync (n : String) (d : Nat) : Entry :=
  { type := "video", url := "/content/videos/" ++ n, name := n, duration := some d }

/-- An image entry (`duration` is always `SLIDE_DURATION`); the url contains the
path of the slide relative to the cache, `<stem>/<file>`. -/
def image_entry (stm n : String) : Entry :=
  { type := "image", url := "/content/slides/" ++ stm ++ "/" ++ n, name := n,
    duration := some SLIDE_DURATION }

/-- Existence of the subdirectory `SLIDES_CACHE_DIR/<stem>`, returning the raw
file names inside. -/
def lookup_pres (st : Store) (stm : String) : Option (List String) :=
  if st.slidesCacheExists then List.lookup stm st.presentations else none

/-- One iteration of the selection loop of `get_playlist`: a video match (when
the mode admits videos) expands to `repeats` copies of the video entry;
otherwise the name's stem is tried as a presentation directory and, when the
mode admits presentations, the whole sorted slide group is emitted `repeats`
times.  Unmatched names contribute nothing. -/
def sel_entry_items (st : Store) (mode : String) (e : SelEntry) : List Entry :=
  if e.name = "" then []
  else if e.name ∈ get_video_files st ∧ (mode = "both" ∨ mode = "video") then
    List.replicate e.repeats (video_entry e.name)
  else
    match lookup_pres st (stem e.name) with
    | some files =>
      if mode = "both" ∨ mode = "presentation" then
        (List.replicate e.repeats
          ((sortStr (files.filter isSlideFile)).map (image_entry (stem e.name)))).flatten
      else []
    | none => []

/-- The default-enumeration branch of `get_playlist`: every video (if the mode
admits videos) in enumerator order, then every slide (if the mode admits
presentations) in enumerator order. -/
def default_playlist (st : Store) (mode : String) : List Entry :=
  ((get_video_files st).flatMap fun v =>
    if mode = "both" ∨ mode = "video" then [video_entry v] else []) ++
  ((get_slide_files st).flatMap fun sl =>
    if mode = "both" ∨ mode = "presentation" then [image_entry sl.1 sl.2] else [])

/-- Embeds `get_playlist`: a non-empty selection drives the playlist entirely;
otherwise the default enumeration is used. -/
def get_playlist (st : Store) (mode : String) (selected : List SelEntry) : List Entry :=
  if selected ≠ [] then selected.flatMap (sel_entry_items st mode)
  else default_playlist st mode

/-- Embeds `get_video_duration`: the constant default estimate. -/
def get_video_duration (_v : String) : Nat := 30

/-- Embeds `build_playlist_with_durations`: the default enumeration with a
duration on every entry; the selection file is not consulted. -/
def build_playlist_with_durations (st : Store) (mode : String) : List Entry :=
  ((get_video_files st).flatMap fun v =>
    if mode = "both" ∨ mode = "video" then [video_entry_sync v (get_video_duration v)] else []) ++
  ((get_slide_files st).flatMap fun sl =>
    if mode = "both" ∨ mode = "presentation" then [image_entry sl.1 sl.2] else [])

/-- Python `item.get('duration', 0)`. -/
def itemDuration (e : Entry) : Nat := e.duration.getD 0

/-- Embeds `calculate_total_duration`. -/
def calculate_total_duration (pl : List Entry) : Nat := (pl.map itemDuration).sum

/-- The `for idx, item in enumerate(playlist)` loop of `get_current_item_index`,
with the running index and cumulative duration made explicit; the final
`return 0, 0` is the `[]` case. -/
def currentItemLoop : List Entry → Nat → Nat → Nat → Nat × Nat
  | [], _, _, _ => (0, 0)
  | e :: rest, pos, idx, cum =>
    if cum + itemDuration e > pos then (idx, pos - cum)
    else currentItemLoop rest pos (idx + 1) (cum + itemDuration e)

/-- Embeds `get_current_item_index`. -/
def get_current_item_index (pl : List Entry) (elapsed : Nat) : Nat × Nat :=
  if calculate_total_duration pl = 0 then (0, 0)
  else currentItemLoop pl (elapsed % calculate_total_duration pl) 0 0

/-- Outcome of reading `config.json` (lines 51-58 of `web_player.py`): the file
may be absent, raise on read or parse, or parse to a dict whose `mode` key may
be absent. -/
inductive ConfigRead where
  | missing
  | unreadable
  | parsed (mode : Option String)
deriving DecidableEq, Repr

/-- The mode value produced by the config-reading block: `'both'` unless a
parsed config carries an explicit `mode` value. -/
def read_mode : ConfigRead → String
  | .missing => "both"
  | .unreadable => "both"
  | .parsed none => "both"
  | .parsed (some m) => m

/-- The module-level sync state of `web_player.py`
(`_playlist_cache`, `_playlist_hash_cache`, `_playlist_start_time`). -/
structure SyncState where
  playlistCache : Option (List Entry)
  hashCache : Option String
  startTime : Option Nat
deriving DecidableEq, Repr

/-- Python truthiness of `_playlist_start_time` (None and 0 are falsy). -/
def startTimeTruthy : Option Nat → Bool
  | none => false
  | some t => t != 0

/-- Embeds one call of `api_playlist_sync`, with the fingerprint function `fp`
abstracting `get_playlist_hash_from` (MD5 of the canonical serialization) and
`now` standing for `time.time()` during the call.  Returns the new module
state and the `(currentIndex, itemElapsed)` pair of the response. -/
def api_playlist_sync_step (fp : List Entry → String) (st : Store) (mode : String)
    (now : Nat) (s : SyncState) : SyncState × Nat × Nat :=
  let playlist := build_playlist_with_durations st mode
  let h := fp playlist
  let s' := if s.hashCache ≠ some h then SyncState.mk (some playlist) (some h) (some now) else s
  let ci :=
    if startTimeTruthy s'.startTime && !playlist.isEmpty then
      get_current_item_index playlist (now - s'.startTime.getD 0)
    else (0, 0)
  (s', ci)

/-- A throwaway entry used as the default of `List.getD`. -/
def dummyEntry : Entry := { type := "", url := "", name := "", duration := none }

/-- Cumulative duration of the first `i` entries of a playlist
(the `cumulative` accumulator of `get_current_item_index` before index `i`). -/
def cumulative_before (pl : List Entry) (i : Nat) : Nat :=
  calculate_total_duration (pl.take i)

/-- The logical content of an entry: the `(type, url, name)` triple, with the
duration field forgotten. -/
def entryKey (e : Entry) : String × String × String := (e.type, e.url, e.name)

/-- Claim-side predicate of C3: the file name carries one of the recognized
video extensions up to letter case. -/
def hasVideoExtCI (f : String) : Bool :=
  VIDEO_FORMATS.any (fun ext => endsWithStr (lowerStr f) ext)

theorem calculate_total_duration_nil : calculate_total_duration [] = 0 := rfl

theorem calculate_total_duration_cons (e : Entry) (l : List Entry) :
    calculate_total_duration (e :: l) = itemDuration e + calculate_total_duration l := by
  simp [calculate_total_duration]

theorem cumulative_before_zero (pl : List Entry) : cumulative_before pl 0 = 0 := rfl

theorem cumulative_before_cons (e : Entry) (l : List Entry) (k : Nat) :
    cumulative_before (e :: l) (k + 1) = itemDuration e + cumulative_before l k := by
  simp [cumulative_before, calculate_total_duration]

/-- C5 stated on `get_current_item_index` alone. -/
theorem zero_total_item_index (pl : List Entry) (elapsed : Nat)
    (h : calculate_total_duration pl = 0) :
    get_current_item_index pl elapsed = (0, 0) := by
  simp [get_current_item_index, h]

/-- C5: a playlist whose total duration is zero (in particular the empty one)
makes the synchronized query return `currentIndex = 0`, `itemElapsed = 0`, for
any elapsed time and any call instant, with no division or indexing fault. -/
theorem sync_zero_total_safe (pl : List Entry) (elapsed : Nat)
    (fp : List Entry → String) (st : Store) (mode : String) (now : Nat) (s : SyncState)
    (h : calculate_total_duration pl = 0)
    (h2 : calculate_total_duration (build_playlist_with_durations st mode) = 0) :
    get_current_item_index pl elapsed = (0, 0) ∧
    (api_playlist_sync_step fp st mode now s).2 = (0, 0) := by
  refine ⟨zero_total_item_index pl elapsed h, ?_⟩
  simp only [api_playlist_sync_step]
  split <;> split <;> first | exact zero_total_item_index _ _ h2 | rfl

theorem sync_zero_total_safe_witness :
    get_current_item_index [] 3 = (0, 0) ∧
    (api_playlist_sync_step (fun _ => "h") ⟨false, [], false, []⟩ "both" 5
      ⟨none, none, none⟩).2 = (0, 0) :=
  sync_zero_total_safe [] 3 (fun _ => "h") ⟨false, [], false, []⟩ "both" 5
    ⟨none, none, none⟩ (by decide) (by decide)

/-- C9: in one call of the sync endpoint, an unchanged fingerprint leaves the
whole anchor state untouched, and a changed (or initial) fingerprint replaces
the anchor with the fresh playlist, its fingerprint, and the call's time; the
fingerprint comparison is the only mutation of the state. -/
theorem anchor_reset_on_change (fp : List Entry → String) (st : Store) (mode : String)
    (now : Nat) (s : SyncState) :
    (s.hashCache = some (fp (build_playlist_with_durations st mode)) →
      (api_playlist_sync_step fp st mode now s).1 = s) ∧
    (s.hashCache ≠ some (fp (build_playlist_with_durations st mode)) →
      (api_playlist_sync_step fp st mode now s).1 =
        { playlistCache := some (build_playlist_with_durations st mode),
          hashCache := some (fp (build_playlist_with_durations st mode)),
          startTime := some now }) := by
  constructor <;> intro h <;> simp [api_playlist_sync_step, h]

theorem anchor_reset_on_change_witness :
    (api_playlist_sync_step (fun _ => "h") ⟨false, [], false, []⟩ "both" 7
      ⟨none, none, none⟩).1 =
      { playlistCache := some [], hashCache := some "h", startTime := some 7 } :=
  ((anchor_reset_on_change (fun _ => "h") ⟨false, [], false, []⟩ "both" 7
    ⟨none, none, none⟩).2 (by decide)).trans (by decide)

/-- C6: a selection of exactly `a.mp4` with two repeats, under mode `both` and
with `a.mp4` present as a video, yields exactly the two video entries and
nothing from the default enumeration. -/
theorem selection_precedence (st : Store) (h : "a.mp4" ∈ get_video_files st) :
    get_playlist st "both" [⟨"a.mp4", 2⟩] = [video_entry "a.mp4", video_entry "a.mp4"] := by
  simp [get_playlist, sel_entry_items, h, List.replicate]

theorem selection_precedence_witness :
    get_playlist ⟨true, ["a.mp4", "b.mp4"], false, []⟩ "both" [⟨"a.mp4", 2⟩] =
      [video_entry "a.mp4", video_entry "a.mp4"] :=
  selection_precedence ⟨true, ["a.mp4", "b.mp4"], false, []⟩ (by decide)

theorem sel_entry_items_unrecognized (st : Store) (mode : String) (e : SelEntry)
    (h : ¬(mode = "both" ∨ mode = "video" ∨ mode = "presentation")) :
    sel_entry_items st mode e = [] := by
  have h1 : ¬(mode = "both" ∨ mode = "video") := by tauto
  have h2 : ¬(mode = "both" ∨ mode = "presentation") := by tauto
  unfold sel_entry_items
  by_cases hname : e.name = ""
  · simp [hname]
  · rw [if_neg hname, if_neg (by tauto)]
    cases hlp : lookup_pres st (stem e.name) with
    | none => rfl
    | some files => simp [h2]

theorem default_playlist_unrecognized (st : Store) (mode : String)
    (h : ¬(mode = "both" ∨ mode = "video" ∨ mode = "presentation")) :
    default_playlist st mode = [] := by
  have h1 : ¬(mode = "both" ∨ mode = "video") := by tauto
  have h2 : ¬(mode = "both" ∨ mode = "presentation") := by tauto
  simp [default_playlist, h1, h2]

/-- C2 counterexample: a configuration that parses to the unrecognized mode
value `slides` does not behave like mode `both`: with one video on disk the
playlist comes out empty instead. -/
theorem mode_fallback_cex :
    get_playlist ⟨true, ["a.mp4"], false, []⟩ (read_mode (ConfigRead.parsed (some "slides"))) [] ≠
    get_playlist ⟨true, ["a.mp4"], false, []⟩ "both" [] := by decide

/-- C2 amended: a configuration read that fails (missing file, unreadable or
unparseable content, missing `mode` key) behaves exactly as mode `both`; but a
successfully parsed unrecognized mode value is used as-is and produces the
empty playlist, on the selection path as well as on the default path. -/
theorem mode_fallback (st : Store) (sel : List SelEntry) :
    (∀ c : ConfigRead,
      c = ConfigRead.missing ∨ c = ConfigRead.unreadable ∨ c = ConfigRead.parsed none →
      get_playlist st (read_mode c) sel = get_playlist st "both" sel) ∧
    (∀ mode : String, ¬(mode = "both" ∨ mode = "video" ∨ mode = "presentation") →
      get_playlist st mode sel = []) := by
  constructor
  · intro c hc
    rcases hc with rfl | rfl | rfl <;> rfl
  · intro mode h
    unfold get_playlist
    split
    · simp only [List.flatMap_eq_nil_iff]
      intro e _
      exact sel_entry_items_unrecognized st mode e h
    · exact default_playlist_unrecognized st mode h

theorem mode_fallback_witness :
    get_playlist ⟨true, ["a.mp4"], false, []⟩ (read_mode ConfigRead.missing) [] =
      get_playlist ⟨true, ["a.mp4"], false, []⟩ "both" [] ∧
    get_playlist ⟨true, ["a.mp4"], false, []⟩ "slides" [] = [] :=
  ⟨(mode_fallback ⟨true, ["a.mp4"], false, []⟩ []).1 ConfigRead.missing (Or.inl rfl),
   (mode_fallback ⟨true, ["a.mp4"], false, []⟩ []).2 "slides" (by decide)⟩

theorem video_flatMap_key (l : List String) (c : Prop) [Decidable c] :
    ((l.flatMap fun v => if c then [video_entry v] else []).map entryKey) =
    ((l.flatMap fun v => if c then [video_entry_sync v (get_video_duration v)] else []).map
      entryKey) := by
  induction l with
  | nil => rfl
  | cons v rest ih =>
    by_cases hc : c
    · simp only [if_pos hc, List.flatMap_cons, List.singleton_append, List.map_cons] at ih ⊢
      rw [ih]
      rfl
    · simp only [if_neg hc, List.flatMap_cons, List.nil_append] at ih ⊢

/-- C1 counterexample: with a non-empty selection the two endpoints no longer
agree on the logical content: the stateless snapshot honors the selection
(`a.mp4` twice) while the synchronized snapshot enumerates the whole store. -/
theorem same_content_cex :
    ((get_playlist ⟨true, ["a.mp4", "b.mp4"], false, []⟩ "both" [⟨"a.mp4", 2⟩]).map entryKey) ≠
    ((build_playlist_with_durations ⟨true, ["a.mp4", "b.mp4"], false, []⟩ "both").map
      entryKey) := by decide

/-- C1 amended: when the selection input is absent (empty), the stateless and
the synchronized snapshot produce the same sequence of `(type, url, name)`
triples for every store and mode, differing at most in duration fields; a
non-empty selection is honored only by the stateless snapshot, since
`build_playlist_with_durations` never reads the selection. -/
theorem same_content_no_selection (st : Store) (mode : String) :
    ((get_playlist st mode []).map entryKey) =
    ((build_playlist_with_durations st mode).map entryKey) := by
  show ((default_playlist st mode).map entryKey) = _
  unfold default_playlist build_playlist_with_durations
  rw [List.map_append, List.map_append]
  congr 1
  exact video_flatMap_key (get_video_files st) _

/-- C7: a selection entry that resolves to a presentation group with slides
`[s1, s2]` and two repeats expands to `[s1, s2, s1, s2]`: the repeat count
wraps the whole slide group, not each slide. -/
theorem presentation_repeats (st : Store) (nm s1 s2 mode : String) (files : List String)
    (hn : nm ≠ "")
    (hv : nm ∉ get_video_files st)
    (hp : lookup_pres st (stem nm) = some files)
    (hs : sortStr (files.filter isSlideFile) = [s1, s2])
    (hm : mode = "both" ∨ mode = "presentation") :
    get_playlist st mode [⟨nm, 2⟩] =
      [image_entry (stem nm) s1, image_entry (stem nm) s2,
       image_entry (stem nm) s1, image_entry (stem nm) s2] := by
  have hsel : ([⟨nm, 2⟩] : List SelEntry) ≠ [] := by simp
  rw [get_playlist, if_pos hsel]
  show sel_entry_items st mode ⟨nm, 2⟩ ++ [] = _
  rw [sel_entry_items]
  have hcond : ¬(nm ∈ get_video_files st ∧ (mode = "both" ∨ mode = "video")) :=
    fun hand => hv hand.1
  simp only [hn, if_false, if_neg hcond]
  rw [hp]
  simp [hm, hs, List.replicate]

theorem presentation_repeats_witness :
    get_playlist ⟨true, ["a.mp4"], true, [("deck", ["slide_2.png", "slide_1.png"])]⟩ "both"
      [⟨"deck.pptx", 2⟩] =
      [image_entry "deck" "slide_1.png", image_entry "deck" "slide_2.png",
       image_entry "deck" "slide_1.png", image_entry "deck" "slide_2.png"] := by
  have h : get_playlist ⟨true, ["a.mp4"], true, [("deck", ["slide_2.png", "slide_1.png"])]⟩ "both"
      [⟨"deck.pptx", 2⟩] =
      [image_entry (stem "deck.pptx") "slide_1.png", image_entry (stem "deck.pptx") "slide_2.png",
       image_entry (stem "deck.pptx") "slide_1.png",
       image_entry (stem "deck.pptx") "slide_2.png"] :=
    presentation_repeats ⟨true, ["a.mp4"], true, [("deck", ["slide_2.png", "slide_1.png"])]⟩
      "deck.pptx" "slide_1.png" "slide_2.png" "both" ["slide_2.png", "slide_1.png"]
      (by decide) (by decide) (by decide) (by decide) (Or.inl rfl)
  exact h.trans (by decide)

theorem charListLe_total (as bs : List Char) :
    charListLe as bs = true ∨ charListLe bs as = true := by
  induction as generalizing bs with
  | nil => left; rfl
  | cons a as ih =>
    cases bs with
    | nil => right; rfl
    | cons b bs =>
      by_cases h1 : a.toNat < b.toNat
      · left; simp [charListLe, h1]
      · by_cases h2 : b.toNat < a.toNat
        · right; simp [charListLe, h2]
        · rcases ih bs with h | h
          · left; simp [charListLe, h1, h2, h]
          · right; simp [charListLe, h1, h2, h]

theorem charListLe_trans (as bs cs : List Char) (hab : charListLe as bs = true)
    (hbc : charListLe bs cs = true) : charListLe as cs = true := by
  induction as generalizing bs cs with
  | nil => rfl
  | cons a as ih =>
    cases bs with
    | nil => simp [charListLe] at hab
    | cons b bs =>
      cases cs with
      | nil => simp [charListLe] at hbc
      | cons c cs =>
        simp only [charListLe] at hab hbc ⊢
        split_ifs at hab hbc ⊢ <;> first | rfl | omega | exact ih bs cs hab hbc

instance : IsTotal String strLe :=
  ⟨fun a b => charListLe_total a.toList b.toList⟩

instance : IsTrans String strLe :=
  ⟨fun a b c => charListLe_trans a.toList b.toList c.toList⟩

/-- C3 counterexample: the file `x.Mp4` has a recognized video extension up to
letter case, yet `get_video_files` omits it: the source only globs the
all-lower-case and all-upper-case spellings of each extension. -/
theorem listVideos_cex :
    hasVideoExtCI "x.Mp4" = true ∧
    "x.Mp4" ∉ get_video_files ⟨true, ["x.Mp4"], false, []⟩ := by decide

/-- C3 amended: `get_video_files` of a missing directory is empty; the result
is sorted ascending by name (code-point lexicographic order, Python's sort
order); and every file of the directory whose name ends with a recognized
extension in its all-lower-case or all-upper-case spelling is included.  A
mixed-case extension such as `.Mp4` is not matched. -/
theorem listVideos_spec (st : Store) :
    (st.videosDirExists = false → get_video_files st = []) ∧
    List.Sorted strLe (get_video_files st) ∧
    (∀ f ext, ext ∈ VIDEO_FORMATS →
      (endsWithStr f ext = true ∨ endsWithStr f (upperStr ext) = true) →
      st.videosDirExists = true → f ∈ st.videoDirFiles → f ∈ get_video_files st) := by
  refine ⟨fun h => by simp [get_video_files, h], ?_, ?_⟩
  · unfold get_video_files
    split
    · exact List.sorted_insertionSort strLe _
    · exact List.sorted_nil
  · intro f ext hext hmatch hdir hf
    rw [get_video_files, if_pos hdir]
    unfold sortStr
    rw [List.mem_insertionSort]
    rw [List.mem_flatMap]
    refine ⟨ext, hext, ?_⟩
    rcases hmatch with h | h
    · exact List.mem_append_left _ (List.mem_filter.mpr ⟨hf, h⟩)
    · exact List.mem_append_right _ (List.mem_filter.mpr ⟨hf, h⟩)

theorem listVideos_spec_witness :
    get_video_files ⟨false, ["a.mp4"], false, []⟩ = [] ∧
    "b.MOV" ∈ get_video_files ⟨true, ["b.MOV", "a.mp4"], false, []⟩ :=
  ⟨(listVideos_spec ⟨false, ["a.mp4"], false, []⟩).1 rfl,
   (listVideos_spec ⟨true, ["b.MOV", "a.mp4"], false, []⟩).2.2 "b.MOV" ".mov"
     (by decide) (Or.inr (by decide)) rfl (by decide)⟩

theorem sel_entry_items_types (st : Store) (mode : String) (x : SelEntry) (e : Entry)
    (he : e ∈ sel_entry_items st mode x) :
    (e.type = "video" ∧ (mode = "both" ∨ mode = "video")) ∨
    (e.type = "image" ∧ (mode = "both" ∨ mode = "presentation")) := by
  unfold sel_entry_items at he
  split at he
  · simp at he
  · split at he
    · rename_i hcond
      rw [List.eq_of_mem_replicate he]
      exact Or.inl ⟨rfl, hcond.2⟩
    · split at he
      · split at he
        · rename_i hcond
          rw [List.mem_flatten] at he
          obtain ⟨l, hl, hel⟩ := he
          rw [List.eq_of_mem_replicate hl] at hel
          rw [List.mem_map] at hel
          obtain ⟨f, _, rfl⟩ := hel
          exact Or.inr ⟨rfl, hcond⟩
        · simp at he
      · simp at he

theorem get_playlist_types (st : Store) (mode : String) (sel : List SelEntry) (e : Entry)
    (he : e ∈ get_playlist st mode sel) :
    (e.type = "video" ∧ (mode = "both" ∨ mode = "video")) ∨
    (e.type = "image" ∧ (mode = "both" ∨ mode = "presentation")) := by
  unfold get_playlist at he
  split at he
  · rw [List.mem_flatMap] at he
    obtain ⟨x, _, hx⟩ := he
    exact sel_entry_items_types st mode x e hx
  · unfold default_playlist at he
    rw [List.mem_append] at he
    rcases he with he | he <;> rw [List.mem_flatMap] at he <;> obtain ⟨x, _, hx⟩ := he <;>
      split at hx
    · rw [List.mem_singleton] at hx
      rw [hx]
      rename_i hcond
      exact Or.inl ⟨rfl, hcond⟩
    · simp at hx
    · rw [List.mem_singleton] at hx
      rw [hx]
      rename_i hcond
      exact Or.inr ⟨rfl, hcond⟩
    · simp at hx

/-- C8: under mode `video` no image entry ever appears in the playlist, and
under mode `presentation` no video entry ever appears, for every store and
every selection input (both the selection-driven and the default path). -/
theorem mode_filtering (st : Store) (sel : List SelEntry) :
    (∀ e ∈ get_playlist st "video" sel, e.type ≠ "image") ∧
    (∀ e ∈ get_playlist st "presentation" sel, e.type ≠ "video") := by
  constructor <;> intro e he <;>
    rcases get_playlist_types st _ sel e he with ⟨h1, h2⟩ | ⟨h1, h2⟩ <;>
    simp_all

theorem mode_filtering_witness :
    video_entry "a.mp4" ∈ get_playlist ⟨true, ["a.mp4"], false, []⟩ "video" [] ∧
    (video_entry "a.mp4").type ≠ "image" :=
  ⟨by decide,
   (mode_filtering ⟨true, ["a.mp4"], false, []⟩ []).1 (video_entry "a.mp4") (by decide)⟩

theorem cumulative_before_succ (pl : List Entry) (j : Nat) (h : j < pl.length) :
    cumulative_before pl (j + 1) =
      cumulative_before pl j + itemDuration (pl.getD j dummyEntry) := by
  induction pl generalizing j with
  | nil => simp at h
  | cons e rest ih =>
    cases j with
    | zero => simp [cumulative_before_cons, cumulative_before_zero]
    | succ j =>
      rw [cumulative_before_cons, cumulative_before_cons, ih j (by simpa using h)]
      simp [List.getD_cons_succ]
      omega

/-- The walk of `get_current_item_index`, characterized: started at a
cumulative value not exceeding the position and with enough total duration
ahead, it stops at the first entry whose cumulative-so-far plus own duration
exceeds the position, and returns that index together with the position minus
the cumulative duration before the entry. -/
theorem currentItemLoop_spec (pl : List Entry) (pos idx cum : Nat)
    (h1 : cum ≤ pos) (h2 : pos < cum + calculate_total_duration pl) :
    ∃ j, j < pl.length ∧
      currentItemLoop pl pos idx cum = (idx + j, pos - (cum + cumulative_before pl j)) ∧
      cum + cumulative_before pl j ≤ pos ∧
      pos < cum + cumulative_before pl (j + 1) ∧
      ∀ k, k < j → cum + cumulative_before pl (k + 1) ≤ pos := by
  induction pl generalizing pos idx cum with
  | nil =>
    rw [calculate_total_duration_nil] at h2
    omega
  | cons e rest ih =>
    by_cases hfirst : cum + itemDuration e > pos
    · refine ⟨0, by simp, ?_, ?_, ?_, ?_⟩
      · simp [currentItemLoop, hfirst, cumulative_before_zero]
      · rw [cumulative_before_zero]; omega
      · rw [cumulative_before_cons, cumulative_before_zero]; omega
      · intro k hk; omega
    · rw [calculate_total_duration_cons] at h2
      obtain ⟨j, hj, heq, hle, hlt, hmin⟩ :=
        ih pos (idx + 1) (cum + itemDuration e) (by omega) (by omega)
      refine ⟨j + 1, by simpa using hj, ?_, ?_, ?_, ?_⟩
      · rw [currentItemLoop, if_neg hfirst, heq, cumulative_before_cons]
        refine Prod.ext ?_ ?_ <;> simp <;> omega
      · rw [cumulative_before_cons]; omega
      · rw [cumulative_before_cons]; omega
      · intro k hk
        cases k with
        | zero => rw [cumulative_before_cons, cumulative_before_zero]; omega
        | succ k =>
          rw [cumulative_before_cons]
          have := hmin k (by omega)
          omega

/-- C4: on a playlist with durations 10 and 20 (total 30) anchored at `T0`, the
current item is `(0, 5)` at `T0 + 5`, `(1, 5)` at `T0 + 15` and `(0, 5)` at
`T0 + 35`; in general, for a non-zero total, the computation reduces the
elapsed time modulo the total and picks the first entry whose cumulative
duration before it plus its own duration exceeds that position, with
`itemElapsed` equal to the position minus the cumulative duration before. -/
theorem looping_index_computation :
    (∀ (e1 e2 : Entry) (T0 : Nat), itemDuration e1 = 10 → itemDuration e2 = 20 →
      get_current_item_index [e1, e2] ((T0 + 5) - T0) = (0, 5) ∧
      get_current_item_index [e1, e2] ((T0 + 15) - T0) = (1, 5) ∧
      get_current_item_index [e1, e2] ((T0 + 35) - T0) = (0, 5)) ∧
    (∀ (pl : List Entry) (elapsed j : Nat),
      calculate_total_duration pl ≠ 0 →
      j < pl.length →
      elapsed % calculate_total_duration pl < cumulative_before pl (j + 1) →
      (∀ k, k < j → cumulative_before pl (k + 1) ≤ elapsed % calculate_total_duration pl) →
      get_current_item_index pl elapsed =
        (j, elapsed % calculate_total_duration pl - cumulative_before pl j)) := by
  constructor
  · intro e1 e2 T0 h1 h2
    have ht : calculate_total_duration [e1, e2] = 30 := by
      simp [calculate_total_duration, h1, h2]
    refine ⟨?_, ?_, ?_⟩
    · rw [show T0 + 5 - T0 = 5 from by omega, get_current_item_index, ht]
      simp [currentItemLoop, h1, h2]
    · rw [show T0 + 15 - T0 = 15 from by omega, get_current_item_index, ht]
      simp [currentItemLoop, h1, h2]
    · rw [show T0 + 35 - T0 = 35 from by omega, get_current_item_index, ht]
      simp [currentItemLoop, h1, h2]
  · intro pl elapsed j h0 hj hlt hmin
    have hpos : elapsed % calculate_total_duration pl < calculate_total_duration pl :=
      Nat.mod_lt elapsed (Nat.pos_of_ne_zero h0)
    obtain ⟨j', hj', heq, hle', hlt', hmin'⟩ :=
      currentItemLoop_spec pl (elapsed % calculate_total_duration pl) 0 0
        (Nat.zero_le _) (by omega)
    have hjj : j' = j := by
      rcases Nat.lt_trichotomy j' j with h | h | h
      · have := hmin j' h
        omega
      · exact h
      · have := hmin' j h
        omega
    rw [get_current_item_index, if_neg h0, heq, hjj]
    simp

theorem looping_index_computation_witness :
    get_current_item_index [video_entry_sync "a" 10, video_entry_sync "b" 20]
      ((0 + 15) - 0) = (1, 5) ∧
    get_current_item_index [video_entry_sync "a" 10, video_entry_sync "b" 20] 35 =
      (0, 35 % calculate_total_duration [video_entry_sync "a" 10, video_entry_sync "b" 20] -
        cumulative_before [video_entry_sync "a" 10, video_entry_sync "b" 20] 0) :=
  ⟨(looping_index_computation.1 (video_entry_sync "a" 10) (video_entry_sync "b" 20) 0
      rfl rfl).2.1,
   looping_index_computation.2 [video_entry_sync "a" 10, video_entry_sync "b" 20] 35 0
     (by decide) (by decide) (by decide) (by intro k hk; omega)⟩

/-- C10: every entry `build_playlist_with_durations` produces carries duration
30 (videos) or 10 (images), hence positive; and on any non-empty playlist all
of whose durations are positive, `get_current_item_index` returns an in-bounds
index and an item-elapsed value strictly below that entry's duration, for
every elapsed time — the trailing fallback is never the result. -/
theorem current_item_in_bounds :
    (∀ (st : Store) (mode : String) (e : Entry), e ∈ build_playlist_with_durations st mode →
      itemDuration e = 30 ∨ itemDuration e = 10) ∧
    (∀ (pl : List Entry) (elapsed : Nat), pl ≠ [] → (∀ e ∈ pl, 0 < itemDuration e) →
      (get_current_item_index pl elapsed).1 < pl.length ∧
      (get_current_item_index pl elapsed).2 <
        itemDuration (pl.getD (get_current_item_index pl elapsed).1 dummyEntry)) := by
  constructor
  · intro st mode e he
    unfold build_playlist_with_durations at he
    rw [List.mem_append] at he
    rcases he with he | he <;> rw [List.mem_flatMap] at he <;> obtain ⟨x, _, hx⟩ := he <;>
      split at hx
    · rw [List.mem_singleton] at hx
      rw [hx]
      exact Or.inl rfl
    · simp at hx
    · rw [List.mem_singleton] at hx
      rw [hx]
      exact Or.inr rfl
    · simp at hx
  · intro pl elapsed hne hposall
    have h0 : calculate_total_duration pl ≠ 0 := by
      cases pl with
      | nil => exact absurd rfl hne
      | cons e rest =>
        have := hposall e (List.mem_cons_self e rest)
        rw [calculate_total_duration_cons]
        omega
    have hpos : elapsed % calculate_total_duration pl < calculate_total_duration pl :=
      Nat.mod_lt elapsed (Nat.pos_of_ne_zero h0)
    obtain ⟨j, hj, heq, hle, hlt, hmin⟩ :=
      currentItemLoop_spec pl (elapsed % calculate_total_duration pl) 0 0
        (Nat.zero_le _) (by omega)
    have hsucc := cumulative_before_succ pl j hj
    rw [get_current_item_index, if_neg h0, heq]
    constructor
    · simpa using hj
    · simp only [Nat.zero_add]
      omega

theorem current_item_in_bounds_witness :
    (itemDuration (video_entry_sync "a.mp4" 30) = 30 ∨
      itemDuration (video_entry_sync "a.mp4" 30) = 10) ∧
    ((get_current_item_index [video_entry_sync "a" 10] 3).1 <
        [video_entry_sync "a" 10].length ∧
      (get_current_item_index [video_entry_sync "a" 10] 3).2 <
        itemDuration ([video_entry_sync "a" 10].getD
          (get_current_item_index [video_entry_sync "a" 10] 3).1 dummyEntry)) :=
  ⟨current_item_in_bounds.1 ⟨true, ["a.mp4"], false, []⟩ "both" (video_entry_sync "a.mp4" 30)
      (by decide),
   current_item_in_bounds.2 [video_entry_sync "a" 10] 3 (by decide) (by decide)⟩
